import Mathlib

/-!
Shallow embedding of the settings form in
`src/components/Settings/SettingsDialog.tsx`: the API-key validator
`validateApiKey`, the save handler `handleSave`, the load-on-open effect,
and the event-driven form lifecycle, together with proofs of the
documented properties.

Strings from the source are modelled as Lean `String`s (a `String` is a
packed `List Char`); the JavaScript `String.prototype.trim` and the two
anchored regular expressions are embedded as executable functions on the
character list.
-/

/-- The AI provider selected in the settings form
(the TS union type `'openai' | 'claude'`). -/
inductive Provider where
  | openai
  | claude
  deriving DecidableEq

/-- The configuration record handed to `window.electronAPI.updateConfig`
and returned by `getConfig` (the six fields built in `handleSave`). -/
structure ConfigState where
  provider : Provider
  apiKey : String
  claudeApiKey : String
  extractionModel : String
  solutionModel : String
  debuggingModel : String
  deriving DecidableEq

/-- Form-local state of the `SettingsDialog` component: the edit buffer
(the six configuration fields) together with the busy flag `isLoading`,
the inline `validationError` message and the `open` flag of the dialog
(named `openDlg` here because `open` is a Lean keyword). -/
structure FormState where
  provider : Provider
  apiKey : String
  claudeApiKey : String
  extractionModel : String
  solutionModel : String
  debuggingModel : String
  isLoading : Bool
  validationError : String
  openDlg : Bool
  deriving DecidableEq

/-- The edit-buffer fields of the form, as the record that `handleSave`
passes to `window.electronAPI.updateConfig`. -/
def configOf (st : FormState) : ConfigState :=
  { provider := st.provider, apiKey := st.apiKey, claudeApiKey := st.claudeApiKey,
    extractionModel := st.extractionModel, solutionModel := st.solutionModel,
    debuggingModel := st.debuggingModel }

/-- The WhiteSpace/LineTerminator set stripped by JavaScript
`String.prototype.trim`. -/
def jsWhitespace (c : Char) : Bool :=
  decide (c = ' ') || decide (c = '\t') || decide (c = '\n') ||
  decide (c = '\x0b') || decide (c = '\x0c') || decide (c = '\r') ||
  decide (c = '\u00A0') || decide (c = '\u1680') || decide (c = '\u2000') ||
  decide (c = '\u2001') || decide (c = '\u2002') || decide (c = '\u2003') ||
  decide (c = '\u2004') || decide (c = '\u2005') || decide (c = '\u2006') ||
  decide (c = '\u2007') || decide (c = '\u2008') || decide (c = '\u2009') ||
  decide (c = '\u200A') || decide (c = '\u2028') || decide (c = '\u2029') ||
  decide (c = '\u202F') || decide (c = '\u205F') || decide (c = '\u3000') ||
  decide (c = '\uFEFF')

/-- Remove `jsWhitespace` characters from both ends of a character list. -/
def trimChars (s : List Char) : List Char :=
  ((s.dropWhile jsWhitespace).reverse.dropWhile jsWhitespace).reverse

/-- Embedding of JavaScript `key.trim()`. -/
def jsTrim (s : String) : String :=
  String.mk (trimChars s.data)

/-- The regex character class `[a-zA-Z0-9]` used by both key patterns. -/
def isAlnumAscii (c : Char) : Bool :=
  (decide ('a' ≤ c) && decide (c ≤ 'z')) ||
  (decide ('A' ≤ c) && decide (c ≤ 'Z')) ||
  (decide ('0' ≤ c) && decide (c ≤ '9'))

/-- Embedding of the anchored regex test
`/^sk-[a-zA-Z0-9]\x7b32,\x7d$/.test` from `validateApiKey`. -/
def matchOpenAI : List Char → Bool
  | c1 :: c2 :: c3 :: rest =>
      decide (c1 = 's') && decide (c2 = 'k') && decide (c3 = '-') &&
      rest.all isAlnumAscii && decide (32 ≤ rest.length)
  | _ => false

/-- Embedding of the anchored regex test
`/^sk[-_]ant[-_][a-zA-Z0-9]\x7b32,\x7d$/.test` from `validateApiKey`. -/
def matchClaude : List Char → Bool
  | c1 :: c2 :: c3 :: c4 :: c5 :: c6 :: c7 :: rest =>
      decide (c1 = 's') && decide (c2 = 'k') &&
      (decide (c3 = '-') || decide (c3 = '_')) &&
      decide (c4 = 'a') && decide (c5 = 'n') && decide (c6 = 't') &&
      (decide (c7 = '-') || decide (c7 = '_')) &&
      rest.all isAlnumAscii && decide (32 ≤ rest.length)
  | _ => false

/-- Embedding of `validateApiKey` (SettingsDialog.tsx lines 143-149):
the provider-specific anchored regex applied to the trimmed key. -/
def validateApiKey (key : String) (provider : Provider) : Bool :=
  match provider with
  | .openai => matchOpenAI (jsTrim key).data
  | .claude => matchClaude (jsTrim key).data

/-- Spec-side reading of the character class `[A-Za-z0-9]`. -/
def alnumSpec (c : Char) : Prop :=
  ('A' ≤ c ∧ c ≤ 'Z') ∨ ('a' ≤ c ∧ c ≤ 'z') ∨ ('0' ≤ c ∧ c ≤ '9')

instance (c : Char) : Decidable (alnumSpec c) := by
  unfold alnumSpec
  infer_instance

/-- Spec-side reading of the pattern `^sk-[A-Za-z0-9]\x7b32,\x7d$`:
the whole string is `sk-` followed by at least 32 alphanumerics. -/
def specOpenAI (s : List Char) : Prop :=
  ∃ core : List Char,
    s = 's' :: 'k' :: '-' :: core ∧ 32 ≤ core.length ∧ ∀ c ∈ core, alnumSpec c

/-- Spec-side reading of the pattern `^sk[-_]ant[-_][A-Za-z0-9]\x7b32,\x7d$`. -/
def specClaude (s : List Char) : Prop :=
  ∃ (d1 d2 : Char) (core : List Char),
    s = 's' :: 'k' :: d1 :: 'a' :: 'n' :: 't' :: d2 :: core ∧
    (d1 = '-' ∨ d1 = '_') ∧ (d2 = '-' ∨ d2 = '_') ∧
    32 ≤ core.length ∧ ∀ c ∈ core, alnumSpec c

/-- The spec pattern selected by the provider. -/
def specPat : Provider → List Char → Prop
  | .openai => specOpenAI
  | .claude => specClaude

theorem isAlnumAscii_iff (c : Char) : isAlnumAscii c = true ↔ alnumSpec c := by
  simp only [isAlnumAscii, alnumSpec, Bool.or_eq_true, Bool.and_eq_true,
    decide_eq_true_iff]
  tauto

theorem matchOpenAI_iff (s : List Char) : matchOpenAI s = true ↔ specOpenAI s := by
  constructor
  · intro h
    rcases s with _ | ⟨c1, s⟩
    · simp [matchOpenAI] at h
    rcases s with _ | ⟨c2, s⟩
    · simp [matchOpenAI] at h
    rcases s with _ | ⟨c3, rest⟩
    · simp [matchOpenAI] at h
    simp only [matchOpenAI, Bool.and_eq_true, decide_eq_true_iff,
      List.all_eq_true] at h
    obtain ⟨⟨⟨⟨h1, h2⟩, h3⟩, hall⟩, hlen⟩ := h
    subst h1; subst h2; subst h3
    exact ⟨rest, rfl, hlen, fun c hc => (isAlnumAscii_iff c).1 (hall c hc)⟩
  · intro h
    unfold specOpenAI at h
    obtain ⟨core, rfl, hlen, hall⟩ := h
    have hall' : core.all isAlnumAscii = true :=
      List.all_eq_true.2 fun c hc => (isAlnumAscii_iff c).2 (hall c hc)
    have hlen' : decide (32 ≤ core.length) = true := decide_eq_true hlen
    show (decide ('s' = 's') && decide ('k' = 'k') && decide ('-' = '-') &&
      core.all isAlnumAscii && decide (32 ≤ core.length)) = true
    rw [hall', hlen']
    decide

theorem matchClaude_iff (s : List Char) : matchClaude s = true ↔ specClaude s := by
  constructor
  · intro h
    rcases s with _ | ⟨c1, s⟩
    · simp [matchClaude] at h
    rcases s with _ | ⟨c2, s⟩
    · simp [matchClaude] at h
    rcases s with _ | ⟨c3, s⟩
    · simp [matchClaude] at h
    rcases s with _ | ⟨c4, s⟩
    · simp [matchClaude] at h
    rcases s with _ | ⟨c5, s⟩
    · simp [matchClaude] at h
    rcases s with _ | ⟨c6, s⟩
    · simp [matchClaude] at h
    rcases s with _ | ⟨c7, rest⟩
    · simp [matchClaude] at h
    simp only [matchClaude, Bool.and_eq_true, Bool.or_eq_true,
      decide_eq_true_iff, List.all_eq_true] at h
    obtain ⟨⟨⟨⟨⟨⟨⟨⟨h1, h2⟩, h3⟩, h4⟩, h5⟩, h6⟩, h7⟩, hall⟩, hlen⟩ := h
    subst h1; subst h2; subst h4; subst h5; subst h6
    exact ⟨c3, c7, rest, rfl, h3, h7, hlen,
      fun c hc => (isAlnumAscii_iff c).1 (hall c hc)⟩
  · intro h
    unfold specClaude at h
    obtain ⟨d1, d2, core, rfl, hd1, hd2, hlen, hall⟩ := h
    have hall' : core.all isAlnumAscii = true :=
      List.all_eq_true.2 fun c hc => (isAlnumAscii_iff c).2 (hall c hc)
    have hlen' : decide (32 ≤ core.length) = true := decide_eq_true hlen
    have hd1' : (decide (d1 = '-') || decide (d1 = '_')) = true := by
      rcases hd1 with rfl | rfl <;> rfl
    have hd2' : (decide (d2 = '-') || decide (d2 = '_')) = true := by
      rcases hd2 with rfl | rfl <;> rfl
    show (decide ('s' = 's') && decide ('k' = 'k') &&
      (decide (d1 = '-') || decide (d1 = '_')) &&
      decide ('a' = 'a') && decide ('n' = 'n') && decide ('t' = 't') &&
      (decide (d2 = '-') || decide (d2 = '_')) &&
      core.all isAlnumAscii && decide (32 ≤ core.length)) = true
    rw [hd1', hd2', hall', hlen']
    decide

/-- C1: for every string s, `validateApiKey` with provider `openai` returns
true iff the trimmed s matches `^sk-[A-Za-z0-9]\x7b32,\x7d$`, and with
provider `claude` returns true iff the trimmed s matches
`^sk[-_]ant[-_][A-Za-z0-9]\x7b32,\x7d$`. -/
theorem validateApiKey_iff_pattern (s : String) :
    (validateApiKey s .openai = true ↔ specOpenAI (jsTrim s).data) ∧
    (validateApiKey s .claude = true ↔ specClaude (jsTrim s).data) :=
  ⟨matchOpenAI_iff _, matchClaude_iff _⟩

theorem not_specOpenAI_nil : ¬ specOpenAI ([] : List Char) := by
  intro h
  unfold specOpenAI at h
  obtain ⟨core, hcore, -, -⟩ := h
  exact List.noConfusion hcore

/-- C3: the key validator is a total pure function: on every input string
and every provider it yields a boolean, it yields `false` on the empty
string, and it yields `false` on every string whose trimmed form does not
match the provider's pattern. (Purity and termination hold by
construction: `validateApiKey` is a structurally recursive Lean function
with no effects.) -/
theorem validateApiKey_total_safe (p : Provider) (s : String)
    (h : ¬ specPat p (jsTrim s).data) :
    validateApiKey s p = false ∧ validateApiKey "" p = false ∧
    ∀ t : String, validateApiKey t p = true ∨ validateApiKey t p = false := by
  refine ⟨?_, ?_, fun t => ?_⟩
  · cases p
    · cases hb : validateApiKey s .openai
      · rfl
      · exact absurd ((matchOpenAI_iff _).1 hb) h
    · cases hb : validateApiKey s .claude
      · rfl
      · exact absurd ((matchClaude_iff _).1 hb) h
  · cases p <;> rfl
  · cases validateApiKey t p
    · exact Or.inr rfl
    · exact Or.inl rfl

/-- Witness for C3: the empty string is rejected by the openai validator,
via `validateApiKey_total_safe` at the concrete input `""`. -/
theorem validateApiKey_total_safe_witness : validateApiKey "" .openai = false :=
  (validateApiKey_total_safe .openai "" not_specOpenAI_nil).1

/-- Outcome of the pre-submission validation in `handleSave`
(SettingsDialog.tsx lines 152-176): either an early return that sets
`validationError`, or submission of the edit buffer. -/
inductive SaveDecision where
  | reject (msg : String)
  | submit (cfg : ConfigState)
  deriving DecidableEq

/-- The four validation guards of `handleSave`, in source order.
JavaScript truthiness of a string is non-emptiness. -/
def saveDecision (cfg : ConfigState) : SaveDecision :=
  if cfg.provider = .openai ∧ cfg.apiKey ≠ "" ∧
      validateApiKey cfg.apiKey .openai = false then
    .reject "Invalid OpenAI API key format. Keys should start with \x27sk-\x27"
  else if cfg.provider = .claude ∧ cfg.claudeApiKey ≠ "" ∧
      validateApiKey cfg.claudeApiKey .claude = false then
    .reject "Invalid Claude API key format. Keys should start with \x27sk-ant-\x27 or \x27sk_ant_\x27"
  else if cfg.provider = .openai ∧ cfg.apiKey = "" then
    .reject "OpenAI API key is required"
  else if cfg.provider = .claude ∧ cfg.claudeApiKey = "" then
    .reject "Claude API key is required"
  else
    .submit cfg

/-- Externally observable actions of the component. -/
inductive Effect where
  | callUpdateConfig (cfg : ConfigState)
  | toast (title message variant : String)
  | closeDialog
  | scheduleReload (delayMs : Nat)
  deriving DecidableEq

/-- Outcome of the awaited `window.electronAPI.updateConfig` promise:
it resolves to a boolean or rejects (throws). -/
inductive UpdateResult where
  | resolved (b : Bool)
  | threw
  deriving DecidableEq

/-- Continuation of `handleSave` once `updateConfig` settles
(lines 189-203): a truthy result shows the success toast, closes the
dialog and schedules the 1.5 s reload; a falsy result does nothing;
a rejection shows the error toast; the `finally` clears the busy flag. -/
def resolveSave (st : FormState) : UpdateResult → FormState × List Effect
  | .resolved true =>
      ({ st with isLoading := false, openDlg := false },
       [Effect.toast "Success" "Settings saved successfully" "success",
        Effect.closeDialog, Effect.scheduleReload 1500])
  | .resolved false => ({ st with isLoading := false }, [])
  | .threw =>
      ({ st with isLoading := false },
       [Effect.toast "Error" "Failed to save settings" "error"])

/-- One full run of `handleSave` (lines 152-204): clear the validation
error, run the guards; on rejection set the message and stop; otherwise
set the busy flag, call `updateConfig` with the raw edit buffer, and
finish according to the promise outcome `r`. -/
def handleSave (st : FormState) (r : UpdateResult) : FormState × List Effect :=
  match saveDecision (configOf { st with validationError := "" }) with
  | .reject msg => ({ st with validationError := msg }, [])
  | .submit cfg =>
      ((resolveSave { st with validationError := "", isLoading := true } r).1,
       Effect.callUpdateConfig cfg ::
         (resolveSave { st with validationError := "", isLoading := true } r).2)

/-- The configurations passed to `updateConfig` among a list of effects. -/
def callsOf (effs : List Effect) : List ConfigState :=
  effs.filterMap fun e =>
    match e with
    | .callUpdateConfig cfg => some cfg
    | _ => none

theorem handleSave_reject (st : FormState) (r : UpdateResult) (msg : String)
    (h : saveDecision (configOf st) = SaveDecision.reject msg) :
    handleSave st r = ({ st with validationError := msg }, []) := by
  have h' : saveDecision (configOf { st with validationError := "" }) =
      SaveDecision.reject msg := h
  simp only [handleSave, h']

theorem handleSave_submit (st : FormState) (r : UpdateResult) (cfg : ConfigState)
    (h : saveDecision (configOf st) = SaveDecision.submit cfg) :
    handleSave st r =
      ((resolveSave { st with validationError := "", isLoading := true } r).1,
       Effect.callUpdateConfig cfg ::
         (resolveSave { st with validationError := "", isLoading := true } r).2) := by
  have h' : saveDecision (configOf { st with validationError := "" }) =
      SaveDecision.submit cfg := h
  simp only [handleSave, h']

theorem saveDecision_submit_valid (cfg cfg' : ConfigState)
    (h : saveDecision cfg = SaveDecision.submit cfg') :
    cfg' = cfg ∧
    (cfg.provider = .openai →
      cfg.apiKey ≠ "" ∧ validateApiKey cfg.apiKey .openai = true) ∧
    (cfg.provider = .claude →
      cfg.claudeApiKey ≠ "" ∧ validateApiKey cfg.claudeApiKey .claude = true) := by
  unfold saveDecision at h
  split_ifs at h with h1 h2 h3 h4
  refine ⟨(SaveDecision.submit.inj h).symm, fun hp => ?_, fun hp => ?_⟩
  · have hk : cfg.apiKey ≠ "" := fun hk => h3 ⟨hp, hk⟩
    have hv : validateApiKey cfg.apiKey .openai = true := by
      cases hvb : validateApiKey cfg.apiKey .openai
      · exact absurd ⟨hp, hk, hvb⟩ h1
      · rfl
    exact ⟨hk, hv⟩
  · have hk : cfg.claudeApiKey ≠ "" := fun hk => h4 ⟨hp, hk⟩
    have hv : validateApiKey cfg.claudeApiKey .claude = true := by
      cases hvb : validateApiKey cfg.claudeApiKey .claude
      · exact absurd ⟨hp, hk, hvb⟩ h2
      · rfl
    exact ⟨hk, hv⟩

/-- C2: whenever a run of `handleSave` reaches the external
`updateConfig` call, the submitted record is the edit buffer, and the key
selected by the provider is non-empty and passes the provider's pattern
validation; save is never submitted with a missing or unvalidated
required key. -/
theorem save_call_implies_validated (st : FormState) (r : UpdateResult)
    (cfg : ConfigState)
    (h : Effect.callUpdateConfig cfg ∈ (handleSave st r).2) :
    cfg = configOf st ∧
    (st.provider = .openai →
      st.apiKey ≠ "" ∧ validateApiKey st.apiKey .openai = true) ∧
    (st.provider = .claude →
      st.claudeApiKey ≠ "" ∧ validateApiKey st.claudeApiKey .claude = true) := by
  rcases hdec : saveDecision (configOf st) with msg | cfg'
  · rw [handleSave_reject st r msg hdec] at h
    exact absurd h (List.not_mem_nil _)
  · rw [handleSave_submit st r cfg' hdec] at h
    obtain ⟨hc, ho, hcl⟩ := saveDecision_submit_valid (configOf st) cfg' hdec
    have hcfg : cfg = cfg' := by
      rcases List.mem_cons.1 h with h' | h'
      · injection h' with h''
      · exfalso
        rcases r with b | _
        · cases b <;> simp [resolveSave] at h'
        · simp [resolveSave] at h'
    subst hcfg
    exact ⟨hc, ho, hcl⟩

/-- The string `sk-` followed by 32 characters `a` (the accepted key of
the save scenario). -/
def goodOpenAIKey : String :=
  String.mk ('s' :: 'k' :: '-' :: List.replicate 32 'a')

/-- A form state ready to save: provider `openai` with a well-formed key
and otherwise default fields. -/
def readyForm : FormState :=
  { provider := .openai, apiKey := goodOpenAIKey, claudeApiKey := "",
    extractionModel := "gpt-4o", solutionModel := "gpt-4o",
    debuggingModel := "gpt-4o", isLoading := false,
    validationError := "", openDlg := true }

/-- Witness for C2: a concrete run of `handleSave` from `readyForm` does
call `updateConfig`, and `save_call_implies_validated` applied to it
yields a non-empty validated key. -/
theorem save_call_implies_validated_witness :
    readyForm.apiKey ≠ "" ∧ validateApiKey readyForm.apiKey .openai = true := by
  have h := save_call_implies_validated readyForm (.resolved true)
    (configOf readyForm) (by decide)
  exact h.2.1 rfl

/-- C5: whenever the external submission throws, `handleSave` surfaces
the error toast and leaves every edit-buffer field (provider, both keys,
all three models) and the open dialog unchanged, so the user can retry. -/
theorem save_threw_preserves_buffer (st : FormState) (cfg : ConfigState)
    (h : saveDecision (configOf st) = SaveDecision.submit cfg) :
    (handleSave st .threw).1.provider = st.provider ∧
    (handleSave st .threw).1.apiKey = st.apiKey ∧
    (handleSave st .threw).1.claudeApiKey = st.claudeApiKey ∧
    (handleSave st .threw).1.extractionModel = st.extractionModel ∧
    (handleSave st .threw).1.solutionModel = st.solutionModel ∧
    (handleSave st .threw).1.debuggingModel = st.debuggingModel ∧
    (handleSave st .threw).1.openDlg = st.openDlg ∧
    (handleSave st .threw).2 =
      [Effect.callUpdateConfig cfg,
       Effect.toast "Error" "Failed to save settings" "error"] := by
  rw [handleSave_submit st .threw cfg h]
  exact ⟨rfl, rfl, rfl, rfl, rfl, rfl, rfl, rfl⟩

/-- Witness for C5 at the concrete state `readyForm`. -/
theorem save_threw_preserves_buffer_witness :
    (handleSave readyForm .threw).1.apiKey = readyForm.apiKey :=
  (save_threw_preserves_buffer readyForm (configOf readyForm) (by decide)).2.1

/-- C6: with provider `openai` and key `sk-short` the save is rejected
before any submission with the OpenAI format message, and with provider
`claude` and an empty Claude key it is rejected before any submission
with the message `Claude API key is required`; in both cases no effect
(in particular no `updateConfig` call) is produced and the message is
placed in `validationError`. -/
theorem save_reject_scenarios (ak ck em sm dm ve : String) (il op : Bool)
    (r : UpdateResult) :
    saveDecision (ConfigState.mk .openai "sk-short" ck em sm dm) =
      SaveDecision.reject
        "Invalid OpenAI API key format. Keys should start with \x27sk-\x27" ∧
    (handleSave (FormState.mk .openai "sk-short" ck em sm dm il ve op) r).2 = [] ∧
    (handleSave (FormState.mk .openai "sk-short" ck em sm dm il ve op) r).1.validationError =
      "Invalid OpenAI API key format. Keys should start with \x27sk-\x27" ∧
    saveDecision (ConfigState.mk .claude ak "" em sm dm) =
      SaveDecision.reject "Claude API key is required" ∧
    (handleSave (FormState.mk .claude ak "" em sm dm il ve op) r).2 = [] ∧
    (handleSave (FormState.mk .claude ak "" em sm dm il ve op) r).1.validationError =
      "Claude API key is required" := by
  have ho : saveDecision (ConfigState.mk .openai "sk-short" ck em sm dm) =
      SaveDecision.reject
        "Invalid OpenAI API key format. Keys should start with \x27sk-\x27" := by
    unfold saveDecision
    rw [if_pos ⟨rfl, show ("sk-short" : String) ≠ "" by decide,
      show validateApiKey "sk-short" .openai = false by decide⟩]
  have hc : saveDecision (ConfigState.mk .claude ak "" em sm dm) =
      SaveDecision.reject "Claude API key is required" := by
    unfold saveDecision
    rw [if_neg (fun hcond => Provider.noConfusion hcond.1),
      if_neg (fun hcond => hcond.2.1 rfl),
      if_neg (fun hcond => Provider.noConfusion hcond.1),
      if_pos ⟨rfl, rfl⟩]
  have hOs := handleSave_reject (FormState.mk .openai "sk-short" ck em sm dm il ve op) r _ ho
  have hCs := handleSave_reject (FormState.mk .claude ak "" em sm dm il ve op) r _ hc
  exact ⟨ho, by rw [hOs], by rw [hOs], hc, by rw [hCs], by rw [hCs]⟩

/-- C7: with provider `openai` and the key `sk-` followed by 32 `a`
characters, the save is accepted and `updateConfig` is called exactly
once, with the `apiKey` field equal to that exact string, whatever the
other fields and the promise outcome. -/
theorem save_good_key_calls_once (ck em sm dm ve : String) (il op : Bool)
    (r : UpdateResult) :
    saveDecision (ConfigState.mk .openai goodOpenAIKey ck em sm dm) =
      SaveDecision.submit (ConfigState.mk .openai goodOpenAIKey ck em sm dm) ∧
    callsOf (handleSave (FormState.mk .openai goodOpenAIKey ck em sm dm il ve op) r).2 =
      [ConfigState.mk .openai goodOpenAIKey ck em sm dm] ∧
    (ConfigState.mk .openai goodOpenAIKey ck em sm dm).apiKey =
      String.mk ('s' :: 'k' :: '-' :: List.replicate 32 'a') := by
  have hv : validateApiKey goodOpenAIKey .openai = true := by decide
  have hne : goodOpenAIKey ≠ "" := by decide
  have hd : saveDecision (ConfigState.mk .openai goodOpenAIKey ck em sm dm) =
      SaveDecision.submit (ConfigState.mk .openai goodOpenAIKey ck em sm dm) := by
    unfold saveDecision
    rw [if_neg (fun hcond => Bool.noConfusion (hv.symm.trans hcond.2.2)),
      if_neg (fun hcond => Provider.noConfusion hcond.1),
      if_neg (fun hcond => hne hcond.2),
      if_neg (fun hcond => Provider.noConfusion hcond.1)]
  have hs := handleSave_submit
    (FormState.mk .openai goodOpenAIKey ck em sm dm il ve op) r _ hd
  refine ⟨hd, ?_, rfl⟩
  rw [hs]
  rcases r with b | _
  · cases b <;> simp [callsOf, resolveSave]
  · simp [callsOf, resolveSave]

/-- C10: when `updateConfig` resolves to `false`, `handleSave` produces
no user-visible feedback: its only effect is the `updateConfig` call
itself (no toast, no dialog close, no scheduled reload), the dialog stays
open, the edit buffer is unchanged, and the busy flag is cleared (the
validation error was already cleared when the save started). -/
theorem save_false_result_silent (st : FormState) (cfg : ConfigState)
    (h : saveDecision (configOf st) = SaveDecision.submit cfg) :
    handleSave st (.resolved false) =
      ({ st with validationError := "", isLoading := false },
       [Effect.callUpdateConfig cfg]) := by
  rw [handleSave_submit st (.resolved false) cfg h]
  rfl

/-- Witness for C10 at the concrete state `readyForm`. -/
theorem save_false_result_silent_witness :
    (handleSave readyForm (.resolved false)).2 =
      [Effect.callUpdateConfig (configOf readyForm)] := by
  rw [save_false_result_silent readyForm (configOf readyForm) (by decide)]

theorem dropWhile_append_all (l1 l2 : List Char)
    (h : ∀ c ∈ l1, jsWhitespace c = true) :
    (l1 ++ l2).dropWhile jsWhitespace = l2.dropWhile jsWhitespace := by
  induction l1 with
  | nil => rfl
  | cons a t ih =>
      rw [List.cons_append, List.dropWhile_cons,
        if_pos (h a (List.mem_cons_self a t))]
      exact ih fun c hc => h c (List.mem_cons_of_mem a hc)

theorem dropWhile_cons_of_neg (a : Char) (t : List Char)
    (ha : jsWhitespace a = false) :
    (a :: t).dropWhile jsWhitespace = a :: t := by
  rw [List.dropWhile_cons, if_neg]
  rw [ha]
  exact Bool.false_ne_true

theorem alnumSpec_not_ws (c : Char) (h : alnumSpec c) : jsWhitespace c = false := by
  have key : ∀ w : Char, ¬ alnumSpec w → c ≠ w := fun w hw e => hw (e ▸ h)
  unfold jsWhitespace
  rw [decide_eq_false (key ' ' (by decide)), decide_eq_false (key '\t' (by decide)),
    decide_eq_false (key '\n' (by decide)), decide_eq_false (key '\x0b' (by decide)),
    decide_eq_false (key '\x0c' (by decide)), decide_eq_false (key '\r' (by decide)),
    decide_eq_false (key '\u00A0' (by decide)), decide_eq_false (key '\u1680' (by decide)),
    decide_eq_false (key '\u2000' (by decide)), decide_eq_false (key '\u2001' (by decide)),
    decide_eq_false (key '\u2002' (by decide)), decide_eq_false (key '\u2003' (by decide)),
    decide_eq_false (key '\u2004' (by decide)), decide_eq_false (key '\u2005' (by decide)),
    decide_eq_false (key '\u2006' (by decide)), decide_eq_false (key '\u2007' (by decide)),
    decide_eq_false (key '\u2008' (by decide)), decide_eq_false (key '\u2009' (by decide)),
    decide_eq_false (key '\u200A' (by decide)), decide_eq_false (key '\u2028' (by decide)),
    decide_eq_false (key '\u2029' (by decide)), decide_eq_false (key '\u202F' (by decide)),
    decide_eq_false (key '\u205F' (by decide)), decide_eq_false (key '\u3000' (by decide)),
    decide_eq_false (key '\uFEFF' (by decide))]
  rfl

theorem trimChars_sandwich (ws1 ws2 core : List Char) (hne : core ≠ [])
    (h1 : ∀ c ∈ ws1, jsWhitespace c = true)
    (h2 : ∀ c ∈ ws2, jsWhitespace c = true)
    (hc : ∀ c ∈ core, jsWhitespace c = false) :
    trimChars (ws1 ++ core ++ ws2) = core := by
  unfold trimChars
  have e1 : (ws1 ++ core ++ ws2).dropWhile jsWhitespace = core ++ ws2 := by
    rw [List.append_assoc, dropWhile_append_all ws1 (core ++ ws2) h1]
    cases core with
    | nil => exact absurd rfl hne
    | cons a t =>
        rw [List.cons_append]
        exact dropWhile_cons_of_neg a (t ++ ws2) (hc a (List.mem_cons_self a t))
  rw [e1, List.reverse_append]
  have e2 : (ws2.reverse ++ core.reverse).dropWhile jsWhitespace = core.reverse := by
    rw [dropWhile_append_all ws2.reverse core.reverse
      (fun c hcm => h2 c (List.mem_reverse.1 hcm))]
    cases hrev : core.reverse with
    | nil => rfl
    | cons z t2 =>
        have hzc : z ∈ core :=
          List.mem_reverse.1 (by rw [hrev]; exact List.mem_cons_self z t2)
        exact dropWhile_cons_of_neg z t2 (hc z hzc)
  rw [e2, List.reverse_reverse]

/-- The key field read by the provider-specific guards. -/
def selKey : Provider → ConfigState → String
  | .openai, cfg => cfg.apiKey
  | .claude, cfg => cfg.claudeApiKey

/-- Put a key into the field that the selected provider validates. -/
def setKey : Provider → String → FormState → FormState
  | .openai, k, st => { st with provider := .openai, apiKey := k }
  | .claude, k, st => { st with provider := .claude, claudeApiKey := k }

/-- C9: validation trims the candidate key before pattern matching, but
save submits the raw untrimmed edit-buffer value: for every key made of
a pattern-valid core surrounded by leading or trailing whitespace, the
validator accepts the key, the save guards accept the buffer, and the
submitted configuration carries the key verbatim, whitespace included. -/
theorem trim_validate_raw_submit (p : Provider) (ws1 ws2 core : List Char)
    (st : FormState)
    (h1 : ∀ c ∈ ws1, jsWhitespace c = true)
    (h2 : ∀ c ∈ ws2, jsWhitespace c = true)
    (hcore : specPat p core) :
    validateApiKey (String.mk (ws1 ++ core ++ ws2)) p = true ∧
    saveDecision (configOf (setKey p (String.mk (ws1 ++ core ++ ws2)) st)) =
      SaveDecision.submit
        (configOf (setKey p (String.mk (ws1 ++ core ++ ws2)) st)) ∧
    selKey p (configOf (setKey p (String.mk (ws1 ++ core ++ ws2)) st)) =
      String.mk (ws1 ++ core ++ ws2) := by
  cases p with
  | openai =>
      have hsp : specOpenAI core := hcore
      unfold specOpenAI at hsp
      obtain ⟨cr, hcr, hlen, hall⟩ := hsp
      subst hcr
      have hnws : ∀ c ∈ ('s' :: 'k' :: '-' :: cr), jsWhitespace c = false := by
        intro c hcmem
        rcases List.mem_cons.1 hcmem with rfl | hcmem
        · decide
        rcases List.mem_cons.1 hcmem with rfl | hcmem
        · decide
        rcases List.mem_cons.1 hcmem with rfl | hcmem
        · decide
        exact alnumSpec_not_ws c (hall c hcmem)
      have hne9 : ('s' :: 'k' :: '-' :: cr) ≠ ([] : List Char) :=
        fun e => List.noConfusion e
      have htrim := trimChars_sandwich ws1 ws2 _ hne9 h1 h2 hnws
      have hval : validateApiKey
          (String.mk (ws1 ++ ('s' :: 'k' :: '-' :: cr) ++ ws2)) .openai = true := by
        show matchOpenAI (trimChars (ws1 ++ ('s' :: 'k' :: '-' :: cr) ++ ws2)) = true
        rw [htrim]
        exact (matchOpenAI_iff _).2 ⟨cr, rfl, hlen, hall⟩
      have hkne : String.mk (ws1 ++ ('s' :: 'k' :: '-' :: cr) ++ ws2) ≠ "" := by
        intro e
        have he : ws1 ++ ('s' :: 'k' :: '-' :: cr) ++ ws2 = [] :=
          congrArg String.data e
        exact List.noConfusion (List.append_eq_nil.1 (List.append_eq_nil.1 he).1).2
      have hd : saveDecision (configOf (setKey .openai
            (String.mk (ws1 ++ ('s' :: 'k' :: '-' :: cr) ++ ws2)) st)) =
          SaveDecision.submit (configOf (setKey .openai
            (String.mk (ws1 ++ ('s' :: 'k' :: '-' :: cr) ++ ws2)) st)) := by
        unfold saveDecision
        rw [if_neg (fun hcond => Bool.noConfusion (hval.symm.trans hcond.2.2)),
          if_neg (fun hcond => Provider.noConfusion hcond.1),
          if_neg (fun hcond => hkne hcond.2),
          if_neg (fun hcond => Provider.noConfusion hcond.1)]
      exact ⟨hval, hd, rfl⟩
  | claude =>
      have hsp : specClaude core := hcore
      unfold specClaude at hsp
      obtain ⟨d1, d2, cr, hcr, hd1, hd2, hlen, hall⟩ := hsp
      subst hcr
      have hnws : ∀ c ∈ ('s' :: 'k' :: d1 :: 'a' :: 'n' :: 't' :: d2 :: cr),
          jsWhitespace c = false := by
        intro c hcmem
        rcases List.mem_cons.1 hcmem with rfl | hcmem
        · decide
        rcases List.mem_cons.1 hcmem with rfl | hcmem
        · decide
        rcases List.mem_cons.1 hcmem with rfl | hcmem
        · rcases hd1 with rfl | rfl <;> decide
        rcases List.mem_cons.1 hcmem with rfl | hcmem
        · decide
        rcases List.mem_cons.1 hcmem with rfl | hcmem
        · decide
        rcases List.mem_cons.1 hcmem with rfl | hcmem
        · decide
        rcases List.mem_cons.1 hcmem with rfl | hcmem
        · rcases hd2 with rfl | rfl <;> decide
        exact alnumSpec_not_ws c (hall c hcmem)
      have hne9 : ('s' :: 'k' :: d1 :: 'a' :: 'n' :: 't' :: d2 :: cr) ≠ ([] : List Char) :=
        fun e => List.noConfusion e
      have htrim := trimChars_sandwich ws1 ws2 _ hne9 h1 h2 hnws
      have hval : validateApiKey
          (String.mk (ws1 ++ ('s' :: 'k' :: d1 :: 'a' :: 'n' :: 't' :: d2 :: cr) ++ ws2))
            .claude = true := by
        show matchClaude
          (trimChars (ws1 ++ ('s' :: 'k' :: d1 :: 'a' :: 'n' :: 't' :: d2 :: cr) ++ ws2)) = true
        rw [htrim]
        exact (matchClaude_iff _).2 ⟨d1, d2, cr, rfl, hd1, hd2, hlen, hall⟩
      have hkne : String.mk
          (ws1 ++ ('s' :: 'k' :: d1 :: 'a' :: 'n' :: 't' :: d2 :: cr) ++ ws2) ≠ "" := by
        intro e
        have he : ws1 ++ ('s' :: 'k' :: d1 :: 'a' :: 'n' :: 't' :: d2 :: cr) ++ ws2 = [] :=
          congrArg String.data e
        exact List.noConfusion (List.append_eq_nil.1 (List.append_eq_nil.1 he).1).2
      have hd : saveDecision (configOf (setKey .claude
            (String.mk (ws1 ++ ('s' :: 'k' :: d1 :: 'a' :: 'n' :: 't' :: d2 :: cr) ++ ws2)) st)) =
          SaveDecision.submit (configOf (setKey .claude
            (String.mk (ws1 ++ ('s' :: 'k' :: d1 :: 'a' :: 'n' :: 't' :: d2 :: cr) ++ ws2)) st)) := by
        unfold saveDecision
        rw [if_neg (fun hcond => Provider.noConfusion hcond.1),
          if_neg (fun hcond => Bool.noConfusion (hval.symm.trans hcond.2.2)),
          if_neg (fun hcond => Provider.noConfusion hcond.1),
          if_neg (fun hcond => hkne hcond.2)]
      exact ⟨hval, hd, rfl⟩

/-- Witness for C9: a single space before and a tab after a well-formed
OpenAI key is accepted by the validator, via `trim_validate_raw_submit`
at concrete inputs. -/
theorem trim_validate_raw_submit_witness :
    validateApiKey (String.mk (([' '] : List Char) ++
      ('s' :: 'k' :: '-' :: List.replicate 32 'a') ++ ['\t'])) .openai = true :=
  (trim_validate_raw_submit .openai [' '] ['\t']
    ('s' :: 'k' :: '-' :: List.replicate 32 'a') readyForm
    (by decide) (by decide)
    ⟨List.replicate 32 'a', rfl, by decide, by decide⟩).1

/-- JavaScript `a || b` on a string: the fallback applies exactly to the
empty (falsy) string; used for the `config.x || defaultX` reads in the
load effect (SettingsDialog.tsx lines 125-130). -/
def orDefault (s fallback : String) : String :=
  if s = "" then fallback else s

/-- Start of the load-on-open effect (lines 118-121): set the busy flag
and clear the validation error before awaiting `getConfig`. -/
def openLoadStart (st : FormState) : FormState :=
  { st with isLoading := true, validationError := "" }

/-- Fulfilled `getConfig` (lines 124-131 plus the `finally`): copy the
fetched configuration into the edit buffer, applying the `||` fallbacks,
and clear the busy flag. -/
def loadSuccess (st : FormState) (cfg : ConfigState) : FormState :=
  { st with
    apiKey := orDefault cfg.apiKey "",
    claudeApiKey := orDefault cfg.claudeApiKey "",
    provider := cfg.provider,
    extractionModel := orDefault cfg.extractionModel "gpt-4o",
    solutionModel := orDefault cfg.solutionModel "gpt-4o",
    debuggingModel := orDefault cfg.debuggingModel "gpt-4o",
    isLoading := false }

/-- Rejected `getConfig` (lines 132-138 plus the `finally`): show the
error toast, leave the edit buffer untouched, clear the busy flag. -/
def loadFailure (st : FormState) : FormState × List Effect :=
  ({ st with isLoading := false },
   [Effect.toast "Error" "Failed to load settings" "error"])

/-- The `useState` initial values of the component (lines 90-98). -/
def initForm : FormState :=
  { provider := .openai, apiKey := "", claudeApiKey := "",
    extractionModel := "gpt-4o", solutionModel := "gpt-4o",
    debuggingModel := "gpt-4o", isLoading := false,
    validationError := "", openDlg := false }

/-- Aggregate state of the form's event-driven lifecycle: the component
state plus the number of outstanding `getConfig` and `updateConfig`
promises. -/
structure UIState where
  form : FormState
  loadInFlight : Nat
  saveInFlight : Nat
  deriving DecidableEq

/-- The initial lifecycle state: default form, dialog closed, nothing in
flight. -/
def initState : UIState :=
  { form := initForm, loadInFlight := 0, saveInFlight := 0 }

/-- The edit-buffer update performed by the controlled inputs. -/
def editBuffer (f : FormState) (p : Provider) (a ck em sm dm : String) : FormState :=
  { f with
    provider := p, apiKey := a, claudeApiKey := ck,
    extractionModel := em, solutionModel := sm, debuggingModel := dm }

/-- The synchronous prefix of a passing save click: clear the validation
error and set the busy flag before awaiting `updateConfig`. -/
def submitStart (f : FormState) : FormState :=
  { f with validationError := "", isLoading := true }

/-- Opening the dialog: the `open` flag flips and the load effect starts
(busy flag set, validation error cleared, one more `getConfig` pending). -/
def afterOpen (s : UIState) : UIState :=
  { form := openLoadStart { s.form with openDlg := true },
    loadInFlight := s.loadInFlight + 1, saveInFlight := s.saveInFlight }

/-- One user or promise event of the component, at event-handler
granularity. Opening the dialog starts the load effect of the `useEffect`
on `open`; clicking Save is enabled only while the Save button is not
disabled (`isLoading` false); a pending promise may resolve at any time.
When `strict` is true, the dialog is additionally only opened while no
load or save is outstanding (the restriction of the amended duplicate-
submission claim); with `strict` false the relation is the unrestricted
behaviour of the component. -/
inductive Step : Bool → UIState → UIState → Prop where
  | edit (strict : Bool) (s : UIState) (p : Provider) (a ck em sm dm : String)
      (hopen : s.form.openDlg = true) :
      Step strict s { s with form := editBuffer s.form p a ck em sm dm }
  | openDialog (strict : Bool) (s : UIState)
      (hclosed : s.form.openDlg = false)
      (hstrict : strict = true → s.loadInFlight = 0 ∧ s.saveInFlight = 0) :
      Step strict s (afterOpen s)
  | loadOk (strict : Bool) (s : UIState) (cfg : ConfigState)
      (h : 1 ≤ s.loadInFlight) :
      Step strict s { s with form := loadSuccess s.form cfg, loadInFlight := s.loadInFlight - 1 }
  | loadErr (strict : Bool) (s : UIState) (h : 1 ≤ s.loadInFlight) :
      Step strict s { s with form := (loadFailure s.form).1, loadInFlight := s.loadInFlight - 1 }
  | saveReject (strict : Bool) (s : UIState) (msg : String)
      (hopen : s.form.openDlg = true) (hidle : s.form.isLoading = false)
      (hdec : saveDecision (configOf s.form) = SaveDecision.reject msg) :
      Step strict s { s with form := { s.form with validationError := msg } }
  | saveSubmit (strict : Bool) (s : UIState) (cfg : ConfigState)
      (hopen : s.form.openDlg = true) (hidle : s.form.isLoading = false)
      (hdec : saveDecision (configOf s.form) = SaveDecision.submit cfg) :
      Step strict s { s with form := submitStart s.form, saveInFlight := s.saveInFlight + 1 }
  | saveResolve (strict : Bool) (s : UIState) (r : UpdateResult)
      (h : 1 ≤ s.saveInFlight) :
      Step strict s { s with form := (resolveSave s.form r).1, saveInFlight := s.saveInFlight - 1 }
  | closeDialog (strict : Bool) (s : UIState) (hopen : s.form.openDlg = true) :
      Step strict s { s with form := { s.form with openDlg := false } }

/-- States reachable from the initial lifecycle state. -/
inductive Reach (strict : Bool) : UIState → Prop where
  | init : Reach strict initState
  | step {s t : UIState} (hs : Reach strict s) (hstep : Step strict s t) :
      Reach strict t

/-- Inductive invariant of the strict lifecycle: at most one load and one
save outstanding, and anything outstanding holds the busy flag. -/
def LifecycleInv (s : UIState) : Prop :=
  s.saveInFlight ≤ 1 ∧ s.loadInFlight ≤ 1 ∧
  (1 ≤ s.saveInFlight → s.form.isLoading = true ∧ s.loadInFlight = 0) ∧
  (1 ≤ s.loadInFlight → s.form.isLoading = true ∧ s.saveInFlight = 0)

theorem inv_step {s t : UIState} (hstep : Step true s t) (hs : LifecycleInv s) : LifecycleInv t := by
  obtain ⟨hs1, hs2, hs3, hs4⟩ := hs
  cases hstep with
  | edit p a ck em sm dm hopen => exact ⟨hs1, hs2, hs3, hs4⟩
  | openDialog hclosed hstrict =>
      obtain ⟨hl0, hsv0⟩ := hstrict rfl
      exact ⟨hs1, by show s.loadInFlight + 1 ≤ 1; omega,
        fun hge => absurd hge (by show ¬ 1 ≤ s.saveInFlight; omega),
        fun _ => ⟨rfl, hsv0⟩⟩
  | loadOk cfg h =>
      have hsv0 := (hs4 h).2
      exact ⟨hs1, by show s.loadInFlight - 1 ≤ 1; omega,
        fun hge => absurd hge (by show ¬ 1 ≤ s.saveInFlight; omega),
        fun hge => absurd hge (by show ¬ 1 ≤ s.loadInFlight - 1; omega)⟩
  | loadErr h =>
      have hsv0 := (hs4 h).2
      exact ⟨hs1, by show s.loadInFlight - 1 ≤ 1; omega,
        fun hge => absurd hge (by show ¬ 1 ≤ s.saveInFlight; omega),
        fun hge => absurd hge (by show ¬ 1 ≤ s.loadInFlight - 1; omega)⟩
  | saveReject msg hopen hidle hdec => exact ⟨hs1, hs2, hs3, hs4⟩
  | saveSubmit cfg hopen hidle hdec =>
      have hsv0 : s.saveInFlight = 0 := by
        rcases Nat.eq_zero_or_pos s.saveInFlight with h0 | hpos
        · exact h0
        · have hld := (hs3 hpos).1
          rw [hidle] at hld
          exact Bool.noConfusion hld
      have hld0 : s.loadInFlight = 0 := by
        rcases Nat.eq_zero_or_pos s.loadInFlight with h0 | hpos
        · exact h0
        · have hld := (hs4 hpos).1
          rw [hidle] at hld
          exact Bool.noConfusion hld
      exact ⟨by show s.saveInFlight + 1 ≤ 1; omega, hs2,
        fun _ => ⟨rfl, hld0⟩,
        fun hge => absurd hge (by show ¬ 1 ≤ s.loadInFlight; omega)⟩
  | saveResolve r h =>
      have hld0 := (hs3 h).2
      exact ⟨by show s.saveInFlight - 1 ≤ 1; omega, hs2,
        fun hge => absurd hge (by show ¬ 1 ≤ s.saveInFlight - 1; omega),
        fun hge => absurd hge (by show ¬ 1 ≤ s.loadInFlight; omega)⟩
  | closeDialog hopen => exact ⟨hs1, hs2, hs3, hs4⟩

theorem reach_inv {s : UIState} (h : Reach true s) : LifecycleInv s := by
  induction h with
  | init =>
      exact ⟨by decide, by decide, fun hge => absurd hge (by decide),
        fun hge => absurd hge (by decide)⟩
  | step hs hstep ih => exact inv_step hstep ih

/-- C8 (amended): while the dialog is never reopened with a load or save
still outstanding (the `strict` lifecycle), at most one save submission
is in flight in every reachable state: the busy flag disables duplicate
save clicks within one open session of the dialog. -/
theorem single_save_in_flight (s : UIState) (h : Reach true s) :
    s.saveInFlight ≤ 1 :=
  (reach_inv h).1

/-- Witness for the amended C8 at the initial state. -/
theorem single_save_in_flight_witness : initState.saveInFlight ≤ 1 :=
  single_save_in_flight initState Reach.init

/-- The configuration fetched by the loads of the counterexample traces:
provider `openai` with a well-formed key. -/
def goodConfig : ConfigState :=
  { provider := .openai, apiKey := goodOpenAIKey, claudeApiKey := "",
    extractionModel := "gpt-4o", solutionModel := "gpt-4o",
    debuggingModel := "gpt-4o" }

/-- Counterexample to C8 as stated: in the unrestricted lifecycle a state
with two save submissions in flight is reachable. Trace: open the dialog,
let the load deliver a valid openai configuration, click Save (one save
pending), close the dialog with Cancel (always enabled), reopen it (a new
load starts), let that load finish (it clears the busy flag while the
save is still pending), and click Save again. -/
theorem double_save_in_flight_reachable :
    ∃ s : UIState, Reach false s ∧ 2 ≤ s.saveInFlight := by
  have r0 : Reach false initState := Reach.init
  have r1 := Reach.step r0 (Step.openDialog false initState (by decide)
    (fun hx => absurd hx Bool.false_ne_true))
  have r2 := Reach.step r1 (Step.loadOk false _ goodConfig (by decide))
  have r3 := Reach.step r2 (Step.saveSubmit false _ goodConfig
    (by decide) (by decide) (by decide))
  have r4 := Reach.step r3 (Step.closeDialog false _ (by decide))
  have r5 := Reach.step r4 (Step.openDialog false _ (by decide)
    (fun hx => absurd hx Bool.false_ne_true))
  have r6 := Reach.step r5 (Step.loadOk false _ goodConfig (by decide))
  have r7 := Reach.step r6 (Step.saveSubmit false _ goodConfig
    (by decide) (by decide) (by decide))
  exact ⟨_, r7, by decide⟩

/-- Counterexample to C4 as stated: a state is reachable (open, load
fails, edit the OpenAI key to `x`, close, reopen) in which a load is
pending and its failure, while surfacing the error toast, leaves the
edit buffer with the previously typed non-empty key — not at the
defaults with both key fields empty. -/
theorem load_failure_not_defaults :
    ∃ s : UIState, Reach false s ∧ 1 ≤ s.loadInFlight ∧
      (loadFailure s.form).2 =
        [Effect.toast "Error" "Failed to load settings" "error"] ∧
      (loadFailure s.form).1.apiKey = "x" ∧
      ¬ ((loadFailure s.form).1.apiKey = "" ∧
         (loadFailure s.form).1.claudeApiKey = "") := by
  have r0 : Reach false initState := Reach.init
  have r1 := Reach.step r0 (Step.openDialog false initState (by decide)
    (fun hx => absurd hx Bool.false_ne_true))
  have r2 := Reach.step r1 (Step.loadErr false _ (by decide))
  have r3 := Reach.step r2 (Step.edit false _ .openai "x" "" "gpt-4o"
    "gpt-4o" "gpt-4o" (by decide))
  have r4 := Reach.step r3 (Step.closeDialog false _ (by decide))
  have r5 := Reach.step r4 (Step.openDialog false _ (by decide)
    (fun hx => absurd hx Bool.false_ne_true))
  exact ⟨_, r5, by decide, by decide, by decide, by decide⟩

/-- C4 (amended): whenever the load operation fails, the user-visible
error toast is surfaced, the busy flag is cleared, and all six
edit-buffer fields are left unchanged; in particular a failed load on a
first open leaves the buffer at the initial defaults (provider openai,
all models `gpt-4o`, both keys empty). -/
theorem load_failure_preserves_buffer (st : FormState) :
    (loadFailure st).1.provider = st.provider ∧
    (loadFailure st).1.apiKey = st.apiKey ∧
    (loadFailure st).1.claudeApiKey = st.claudeApiKey ∧
    (loadFailure st).1.extractionModel = st.extractionModel ∧
    (loadFailure st).1.solutionModel = st.solutionModel ∧
    (loadFailure st).1.debuggingModel = st.debuggingModel ∧
    (loadFailure st).1.isLoading = false ∧
    (loadFailure st).2 =
      [Effect.toast "Error" "Failed to load settings" "error"] ∧
    (loadFailure (openLoadStart initForm)).1 = initForm :=
  ⟨rfl, rfl, rfl, rfl, rfl, rfl, rfl, rfl, rfl⟩
